import Mathlib

/-!
Shallow embedding of `td/telegram/NotificationManager.cpp` (notification
aggregation and dispatch engine) and verification of the specification's
claims about it.

Modelling conventions:
* C++ `int32` values (ids, dates, counts) are modelled as `Int`; the code
  under consideration never exercises 32-bit overflow on the paths the
  claims are about.
* `double` time values are modelled as `ℚ` (exact arithmetic).
* `unique_ptr<NotificationType>` is modelled as `Option NotificationType`;
  `std::move` leaves `none` behind.  Dereferencing a null pointer, a failed
  `CHECK`, and dereferencing the `end()` iterator are all modelled by an
  `Option` result being `none`.
* `std::map<NotificationGroupKey, NotificationGroup>` is modelled as an
  association list kept sorted by the key comparator; `emplace` inserts in
  order and does nothing when an equivalent key is present.
-/

/-- Dialog types; the delay policy singles out `SecretChat`
(`dialog_id.get_type()` in the source). -/
inductive DialogType where
  | User | Chat | Channel | SecretChat | None
deriving DecidableEq

/-- Modelled from the spec: the polymorphic `NotificationType` capability set
(declared in the missing header `NotificationManager.h` /
`NotificationType.h`): `can_be_delayed()` and
`get_notification_type_object(dialog_id)`, the latter returning a nullable
rendered object, here `Option Nat` indexed by the dialog id. -/
structure NotificationType where
  canBeDelayed : Bool
  renderedContent : Int → Option Nat

/-- Modelled from the spec: `Notification { id, type }`, an accepted
notification in a group's visible history.  The `type` field is a
`unique_ptr` in the source, hence `Option`. -/
structure Notification where
  notification_id : Int
  ntype : Option NotificationType

/-- Modelled from the spec: `PendingNotification
{ date, settings_dialog_id, is_silent, id, type }` awaiting flush. -/
structure PendingNotification where
  date : Int
  settings_dialog_id : Int
  is_silent : Bool
  notification_id : Int
  ntype : Option NotificationType

/-- Modelled from the spec: `NotificationGroupKey { group_id, dialog_id,
last_notification_date }`; the default constructor yields the all-zero
sentinel ("empty / never flushed"). -/
structure NotificationGroupKey where
  group_id : Int
  dialog_id : Int
  last_notification_date : Int
deriving DecidableEq

/-- The sentinel key `NotificationGroupKey()`. -/
def NotificationGroupKey.sentinel : NotificationGroupKey := ⟨0, 0, 0⟩

/-- Modelled from the spec: the `NotificationGroupKey` comparator of the
missing header: larger `last_notification_date` sorts first, ties broken by
larger `group_id` first. -/
def keyLt (a b : NotificationGroupKey) : Prop :=
  b.last_notification_date < a.last_notification_date ∨
    (a.last_notification_date = b.last_notification_date ∧ b.group_id < a.group_id)

instance (a b : NotificationGroupKey) : Decidable (keyLt a b) := by
  unfold keyLt; infer_instance

/-- Modelled from the spec: `NotificationGroup { notifications, total_count,
pending_notifications, pending_notifications_flush_time }`. -/
structure NotificationGroup where
  notifications : List Notification
  total_count : Int
  pending_notifications : List PendingNotification
  pending_notifications_flush_time : ℚ

/-- The freshly constructed `NotificationGroup()`. -/
def NotificationGroup.empty : NotificationGroup := ⟨[], 0, [], 0⟩

/-- One store entry of `groups_`. -/
abbrev GroupEntry := NotificationGroupKey × NotificationGroup

/-- Emitted `updateNotificationGroup` object (rendered notifications are
`(id, content)` pairs). -/
structure GroupUpdate where
  group_id : Int
  dialog_id : Int
  settings_dialog_id : Int
  is_silent : Bool
  total_count : Int
  added : List (Int × Nat)
  removed_ids : List Int
deriving DecidableEq

/-- Updates sent to the update sink. -/
inductive TdUpdate where
  | group (u : GroupUpdate)
  | single (group_id : Int) (notification_id : Int) (content : Nat)
deriving DecidableEq

/-- Manager state: the ordered group store plus the config mirror and the
disabled (bot-session) flag.  `EXTRA_GROUP_SIZE = 10` appears inline where
the source uses it. -/
structure NMState where
  groups : List GroupEntry
  max_notification_group_count : Nat
  max_notification_group_size : Nat
  keep_notification_group_size : Nat
  disabled : Bool

/-- The source `get_group`: linear scan of `groups_` for the entry whose key carries
`group_id`; `none` models the `end()` iterator. -/
def findGroupEntry (groups : List GroupEntry) (group_id : Int) : Option GroupEntry :=
  groups.find? (fun e => e.1.group_id = group_id)

/-- The source `groups_.erase(it)` for the iterator found by `get_group`: removes the
first entry with the given group id. -/
def eraseGroupEntry (groups : List GroupEntry) (group_id : Int) : List GroupEntry :=
  groups.eraseP (fun e => e.1.group_id = group_id)

/-- The source `std::map::emplace` on the sorted association list: insert before the
first strictly larger key; if an equivalent key (neither side smaller) is
present, insert nothing. -/
def sortedInsert (k : NotificationGroupKey) (g : NotificationGroup) :
    List GroupEntry → List GroupEntry
  | [] => [(k, g)]
  | e :: es =>
    if keyLt k e.1 then (k, g) :: e :: es
    else if keyLt e.1 k then e :: sortedInsert k g es
    else e :: es

/-- The source `get_last_updated_group_key` iteration: starting at `begin()` with
`left = max_notification_group_count_`, advance while `left > 1`; return the
sentinel when the iterator hits `end()`. -/
def lastUpdatedIter : Nat → List GroupEntry → NotificationGroupKey
  | _, [] => NotificationGroupKey.sentinel
  | left, e :: es => if 1 < left then lastUpdatedIter (left - 1) es else e.1

/-- The source `get_last_updated_group_key()`. -/
def get_last_updated_group_key (maxCount : Nat) (groups : List GroupEntry) :
    NotificationGroupKey :=
  lastUpdatedIter maxCount groups

/-- Whether key `K`, were it present, would fall inside the visible window of
the first `maxCount` entries: fewer than `maxCount` present keys sort before
it. -/
def wouldBeVisible (maxCount : Nat) (groups : List GroupEntry)
    (K : NotificationGroupKey) : Prop :=
  groups.countP (fun e => decide (keyLt e.1 K)) < maxCount

/-- Presence oracle output (`get_my_online_status()`). -/
structure OnlineStatus where
  is_online_local : Bool
  is_online_remote : Bool
  was_online_local : Int
  was_online_remote : Int

/-- External environment consumed by the delay policy and the scheduler:
dialog types, presence, clocks, the mirrored config delays, and the header
constant `MIN_NOTIFICATION_DELAY_MS` (modelled from the spec: the header is
not in the sources; the spec only requires it to keep timer fires out of the
past). -/
structure DelayEnv where
  dialogType : Int → DialogType
  onlineStatus : OnlineStatus
  server_time : ℚ
  now : ℚ
  online_cloud_timeout_ms : Int
  notification_cloud_delay_ms : Int
  notification_default_delay_ms : Int
  min_notification_delay_ms : Int
  closing : Bool

/-- The source `static_cast<int32>` on a `double`: truncation toward zero (32-bit
overflow is not modelled). -/
def ratTruncToInt (q : ℚ) : Int :=
  if 0 ≤ q then ⌊q⌋ else ⌈q⌉

/-- The source `get_notification_delay_ms(dialog_id, notification)`: the inner lambda
chooses the base delay (secret chats and undelayable types get 0, otherwise
the presence rules), then the passed time is subtracted and the result is
floored by `MIN_NOTIFICATION_DELAY_MS`.  `none` models the null-pointer
dereference of `notification.type` (reached only when the type is null and
the dialog is not a secret chat). -/
def get_notification_delay_ms (env : DelayEnv) (dialog_id : Int)
    (n : PendingNotification) : Option Int :=
  let base? : Option Int :=
    if env.dialogType dialog_id = DialogType.SecretChat then some 0
    else match n.ntype with
      | none => none
      | some t =>
        if ¬ t.canBeDelayed then some 0
        else
          let oi := env.onlineStatus
          if ¬ oi.is_online_local ∧ oi.is_online_remote then
            some env.notification_cloud_delay_ms
          else if ¬ oi.is_online_local ∧
              ((oi.was_online_remote : ℚ) >
                max ((oi.was_online_local : ℚ))
                  (env.server_time - (env.online_cloud_timeout_ms : ℚ) / 1000)) then
            some env.notification_cloud_delay_ms
          else if oi.is_online_remote then
            some env.notification_default_delay_ms
          else
            some 0
  base?.map fun delay =>
    let passed_time_ms :=
      max 0 (ratTruncToInt ((env.server_time - (n.date : ℚ) - 1) * 1000))
    max (delay - passed_time_ms) env.min_notification_delay_ms

/-- The source `add_notification`: no-op for bot sessions; validity `CHECK`s; lazy group
creation with a zero-date key; delay computation; earliest flush time wins;
append to the pending FIFO.  (The timer-wheel side effect is subsumed by
`pending_notifications_flush_time`.) -/
def add_notification (env : DelayEnv) (st : NMState) (group_id dialog_id : Int)
    (date : Int) (settings_dialog_id : Int) (is_silent : Bool)
    (notification_id : Int) (t : NotificationType) : Option NMState :=
  if st.disabled then some st
  else if ¬ (0 < group_id ∧ 0 < dialog_id ∧ 0 < settings_dialog_id ∧
      0 < notification_id) then none
  else
    let groups1 :=
      match findGroupEntry st.groups group_id with
      | some _ => st.groups
      | none => sortedInsert ⟨group_id, dialog_id, 0⟩ NotificationGroup.empty st.groups
    match findGroupEntry groups1 group_id with
    | none => none
    | some (key, group) =>
      let n : PendingNotification :=
        ⟨date, settings_dialog_id, is_silent, notification_id, some t⟩
      match get_notification_delay_ms env dialog_id n with
      | none => none
      | some delay_ms =>
        let flush_time : ℚ := (delay_ms : ℚ) * (1 / 1000) + env.now
        let newTime : ℚ :=
          if group.pending_notifications_flush_time = 0 ∨
              flush_time < group.pending_notifications_flush_time then
            flush_time
          else group.pending_notifications_flush_time
        let group' := { group with
          pending_notifications_flush_time := newTime,
          pending_notifications := group.pending_notifications ++ [n] }
        let groups2 :=
          groups1.map (fun e => if e.1.group_id = group_id then (key, group') else e)
        some { st with groups := groups2 }

/-- The rendered pairs a pending run contributes before the size cap:
`get_notification_object` per item, null renders dropped. -/
def renderedPairs (dialog_id : Int) (pending : List PendingNotification) :
    List (Int × Nat) :=
  pending.filterMap fun p =>
    p.ntype.bind fun t => (t.renderedContent dialog_id).map fun c =>
      (p.notification_id, c)

/-- The loop of the three-argument `flush_pending_notifications` that builds
`added_notifications` and appends the successfully rendered items to
`group.notifications`.  `none` models the null dereference of a pending
item's moved-out type. -/
def buildAdded (dialog_id : Int) :
    List PendingNotification → Option (List (Int × Nat) × List Notification)
  | [] => some ([], [])
  | p :: ps =>
    match p.ntype with
    | none => none
    | some t =>
      (buildAdded dialog_id ps).map fun r =>
        match t.renderedContent dialog_id with
        | some c => ((p.notification_id, c) :: r.1, (⟨p.notification_id, some t⟩ : Notification) :: r.2)
        | none => r

/-- The three-argument `flush_pending_notifications(group_key, group,
pending_notifications)`: flushes one sub-batch sharing a settings/silence
pair.  Returns the updated group and the emitted update, if any. -/
def flush_pending_batch (maxSize : Nat) (group_key : NotificationGroupKey)
    (group : NotificationGroup) (pending : List PendingNotification) :
    Option (NotificationGroup × Option GroupUpdate) :=
  match pending with
  | [] => some (group, none)
  | p0 :: _ =>
    match buildAdded group_key.dialog_id pending with
    | none => none
    | some (added0, kept) =>
      let old_notification_count := group.notifications.length
      let shown_notification_count := min old_notification_count maxSize
      let notifs := group.notifications ++ kept
      let added :=
        if added0.length > maxSize then added0.drop (added0.length - maxSize)
        else added0
      let removed_notification_ids :=
        if shown_notification_count + added.length > maxSize then
          ((notifs.drop (old_notification_count - shown_notification_count)).take
            (shown_notification_count + added.length - maxSize)).map
            (fun n => n.notification_id)
        else []
      let total := group.total_count + (added.length : Int)
      let group' := { group with notifications := notifs, total_count := total }
      if added.isEmpty then
        if removed_notification_ids.isEmpty then some (group', none)
        else none
      else
        some (group', some ⟨group_key.group_id, group_key.dialog_id,
          p0.settings_dialog_id, p0.is_silent, total, added,
          removed_notification_ids⟩)

/-- The loop computing `final_group_key`: the key keeps its ids and takes
each pending date that is at least the running `last_notification_date`. -/
def finalKeyOf (group_key : NotificationGroupKey)
    (pending : List PendingNotification) : NotificationGroupKey :=
  pending.foldl
    (fun k p =>
      if p.date ≥ k.last_notification_date then
        { k with last_notification_date := p.date }
      else k)
    group_key

/-- The source `send_remove_group_update(group_id)`: withdraws the last
`min(size, max_group_size)` shown ids of the evicted group; emits nothing if
there are none.  `none` models the failed `CHECK`s (invalid id, group not
found). -/
def send_remove_group_update (maxSize : Nat) (groups : List GroupEntry)
    (group_id : Int) : Option (List TdUpdate) :=
  if ¬ 0 < group_id then none
  else
    match findGroupEntry groups group_id with
    | none => none
    | some (key, group) =>
      let total_size := group.notifications.length
      let removed_size := min total_size maxSize
      let removed_notification_ids :=
        ((group.notifications.drop (total_size - removed_size)).map
          (fun n => n.notification_id))
      if removed_notification_ids.isEmpty then some []
      else some [TdUpdate.group ⟨group_id, key.dialog_id, key.dialog_id, true, 0,
        [], removed_notification_ids⟩]

/-- The rendering loop of `send_add_group_update`: null renders are dropped;
`none` models the null dereference of a moved-out notification type. -/
def renderNotifs (dialog_id : Int) : List Notification → Option (List (Int × Nat))
  | [] => some []
  | n :: ns =>
    match n.ntype with
    | none => none
    | some t =>
      (renderNotifs dialog_id ns).map fun r =>
        match t.renderedContent dialog_id with
        | some c => (n.notification_id, c) :: r
        | none => r

/-- The source `send_add_group_update(group_key, group)`: seeds the UI with the last
`min(size, max_group_size)` rendered notifications; emits nothing if all of
them render null. -/
def send_add_group_update (maxSize : Nat) (group_key : NotificationGroupKey)
    (group : NotificationGroup) : Option (List TdUpdate) :=
  let total_size := group.notifications.length
  let added_size := min total_size maxSize
  match renderNotifs group_key.dialog_id
      (group.notifications.drop (total_size - added_size)) with
  | none => none
  | some added =>
    if added.isEmpty then some []
    else some [TdUpdate.group ⟨group_key.group_id, group_key.dialog_id, 0, true, 0,
      added, []⟩]

/-- The sub-batch split loop of `flush_pending_notifications(group_id)`:
runs of a common `(settings_dialog_id, is_silent)` pair are accumulated and
flushed through `flush_pending_batch`; the trailing run is flushed at the
end.  The running pair starts as `(DialogId(), false)`, i.e. `(0, false)`. -/
def flushBatches (maxSize : Nat) (group_key : NotificationGroupKey)
    (curSettings : Int) (curSilent : Bool) (batch : List PendingNotification)
    (group : NotificationGroup) :
    List PendingNotification → Option (NotificationGroup × List GroupUpdate)
  | [] =>
    (flush_pending_batch maxSize group_key group batch).map fun r =>
      (r.1, r.2.toList)
  | p :: ps =>
    if curSettings ≠ p.settings_dialog_id ∨ curSilent ≠ p.is_silent then
      match flush_pending_batch maxSize group_key group batch with
      | none => none
      | some (g1, u?) =>
        (flushBatches maxSize group_key p.settings_dialog_id p.is_silent [p] g1 ps).map
          fun r => (r.1, u?.toList ++ r.2)
    else
      flushBatches maxSize group_key curSettings curSilent (batch ++ [p]) group ps

/-- End of the flush: reset the flush time, clear the pending FIFO, and trim
`notifications` down to `keep_notification_group_size_` once it exceeds
`keep_notification_group_size_ + EXTRA_GROUP_SIZE` (`EXTRA_GROUP_SIZE = 10`,
modelled from the spec: the constant lives in the missing header). -/
def finishGroup (keep : Nat) (group : NotificationGroup) : NotificationGroup :=
  let g1 :=
    { group with
      pending_notifications := []
      pending_notifications_flush_time := 0 }
  if g1.notifications.length > keep + 10 then
    { g1 with
      notifications := g1.notifications.drop (g1.notifications.length - keep) }
  else g1

/-- The body of `flush_pending_notifications(group_id)` between the store
erase and the reinsertion: computes the final key, decides visibility,
either silently appends pending items (not-visible path) or emits the seed
updates and the per-run group updates.  Returns the final key, the final
group, and the updates in emission order. -/
def flushGroupCore (maxCount maxSize keep : Nat) (groups1 : List GroupEntry)
    (group_key : NotificationGroupKey) (group : NotificationGroup) :
    Option (NotificationGroupKey × NotificationGroup × List TdUpdate) :=
  if group.pending_notifications.isEmpty then none
  else
    let final_group_key := finalKeyOf group_key group.pending_notifications
    if final_group_key.last_notification_date = 0 then none
    else
      let last_group_key := get_last_updated_group_key maxCount groups1
      let was_updated := group_key.last_notification_date ≠ 0 ∧
        keyLt group_key last_group_key
      let is_updated := keyLt final_group_key last_group_key
      if ¬ is_updated then
        if was_updated then none
        else
          let notifs := group.notifications ++
            group.pending_notifications.map
              (fun p => (⟨p.notification_id, p.ntype⟩ : Notification))
          some (final_group_key,
            finishGroup keep { group with notifications := notifs }, [])
      else
        let seed? : Option (List TdUpdate) :=
          if was_updated then some []
          else
            match (if last_group_key.last_notification_date ≠ 0 then
                send_remove_group_update maxSize groups1 last_group_key.group_id
              else some []) with
            | none => none
            | some removes =>
              (send_add_group_update maxSize group_key group).map
                fun adds => removes ++ adds
        match seed? with
        | none => none
        | some seeds =>
          (flushBatches maxSize group_key 0 false [] group
              group.pending_notifications).map fun r =>
            (final_group_key, finishGroup keep r.1,
              seeds ++ r.2.map TdUpdate.group)

/-- The source `flush_pending_notifications(group_id)`: look up the group (`CHECK` it
exists), erase it from the store, run the flush body, and reinsert the group
under its final key. -/
def flush_pending_notifications_group (st : NMState) (group_id : Int) :
    Option (NMState × List TdUpdate) :=
  match findGroupEntry st.groups group_id with
  | none => none
  | some (group_key, group) =>
    match flushGroupCore st.max_notification_group_count
        st.max_notification_group_size st.keep_notification_group_size
        (eraseGroupEntry st.groups group_id) group_key group with
    | none => none
    | some (final_key, group', updates) =>
      some ({ st with groups := sortedInsert final_key group' (eraseGroupEntry st.groups group_id) }, updates)

/-- The source `on_flush_pending_notifications_timeout_callback`: returns untouched when
the close flag is set, otherwise flushes the group. -/
def on_flush_timeout (env : DelayEnv) (st : NMState) (group_id : Int) :
    Option (NMState × List TdUpdate) :=
  if env.closing then some (st, [])
  else flush_pending_notifications_group st group_id

/-- External events driving the manager. -/
inductive NMEvent where
  | add (group_id dialog_id : Int) (date : Int) (settings_dialog_id : Int)
      (is_silent : Bool) (notification_id : Int) (t : NotificationType)
  | timerFire (group_id : Int)

/-- Run a sequence of `add_notification` calls and timer fires, collecting
the emitted updates. -/
def runEvents (env : DelayEnv) (st : NMState) :
    List NMEvent → Option (NMState × List TdUpdate)
  | [] => some (st, [])
  | e :: es =>
    match e with
    | NMEvent.add gid did date sdid sil nid t =>
      match add_notification env st gid did date sdid sil nid t with
      | none => none
      | some st' => runEvents env st' es
    | NMEvent.timerFire gid =>
      match on_flush_timeout env st gid with
      | none => none
      | some (st', ups) =>
        (runEvents env st' es).map fun r => (r.1, ups ++ r.2)

/-- Outcome of the scan over `group.notifications` in `edit_notification`:
either the early `return` was taken (carrying the update emitted by
`send_update_notification`, if any), or the loop ran to completion carrying
what is left of the moved-from `type` argument. -/
inductive EditScanOutcome where
  | earlyReturn (up : Option TdUpdate)
  | completed (tv : Option NotificationType)

/-- The indexed loop over `group.notifications` in `edit_notification`:
on a matching id the type is move-assigned; if the index lies in the last
`max_group_size` items, `send_update_notification` runs (it emits only when
the rendered object is non-null) and the function returns.  `none` models
the null dereference inside `get_notification_object` when the assigned
type was already moved out. -/
def editScanNotifs (group_id dialog_id : Int) (maxSize totalLen : Nat)
    (notification_id : Int) :
    Nat → Option NotificationType → List Notification →
    Option (List Notification × EditScanOutcome)
  | _, tv, [] => some ([], EditScanOutcome.completed tv)
  | i, tv, n :: ns =>
    if n.notification_id = notification_id then
      let n' : Notification := { n with ntype := tv }
      if i + maxSize ≥ totalLen then
        match tv with
        | none => none
        | some t =>
          let up := (t.renderedContent dialog_id).map fun c =>
            TdUpdate.single group_id n'.notification_id c
          some (n' :: ns, EditScanOutcome.earlyReturn up)
      else
        match editScanNotifs group_id dialog_id maxSize totalLen
            notification_id (i + 1) none ns with
        | none => none
        | some (ns', out) => some (n' :: ns', out)
    else
      match editScanNotifs group_id dialog_id maxSize totalLen
          notification_id (i + 1) tv ns with
      | none => none
      | some (ns', out) => some (n :: ns', out)

/-- The loop over `group.pending_notifications` in `edit_notification`:
every matching pending item is move-assigned the (remaining) type. -/
def editScanPending (notification_id : Int) :
    Option NotificationType → List PendingNotification → List PendingNotification
  | _, [] => []
  | tv, p :: ps =>
    if p.notification_id = notification_id then
      { p with ntype := tv } :: editScanPending notification_id none ps
    else
      p :: editScanPending notification_id tv ps

/-- Replace (in place) the group stored for `group_id`. -/
def replaceGroup (groups : List GroupEntry) (group_id : Int)
    (g : NotificationGroup) : List GroupEntry :=
  groups.map fun e => if e.1.group_id = group_id then (e.1, g) else e

/-- The source `edit_notification(group_id, notification_id, type)`.  The group lookup
is not guarded: `none` at the lookup models the dereference of the `end()`
iterator when no group with `group_id` exists. -/
def edit_notification (st : NMState) (group_id notification_id : Int)
    (t : NotificationType) : Option (NMState × List TdUpdate) :=
  if st.disabled then some (st, [])
  else if ¬ 0 < notification_id then none
  else
    match findGroupEntry st.groups group_id with
    | none => none
    | some (key, group) =>
      match editScanNotifs key.group_id key.dialog_id
          st.max_notification_group_size group.notifications.length
          notification_id 0 (some t) group.notifications with
      | none => none
      | some (ns', EditScanOutcome.earlyReturn up) =>
        let group' := { group with notifications := ns' }
        some ({ st with groups := replaceGroup st.groups group_id group' }, up.toList)
      | some (ns', EditScanOutcome.completed tv) =>
        let pending' :=
          editScanPending notification_id tv group.pending_notifications
        let group' :=
          { group with
            notifications := ns'
            pending_notifications := pending' }
        some ({ st with groups := replaceGroup st.groups group_id group' }, [])

/-- The source `remove_notification(group_id, notification_id, promise)`: promise
resolution is modelled as an `Except` value carrying the HTTP-style error
code and message. -/
def remove_notification (st : NMState) (group_id notification_id : Int) :
    NMState × Except (Int × String) Unit :=
  if ¬ 0 < notification_id then
    (st, Except.error (400, "Notification identifier is invalid"))
  else if st.disabled then (st, Except.ok ())
  else (st, Except.ok ())

/-- The source `remove_notification_group(group_id, max_notification_id, promise)`. -/
def remove_notification_group (st : NMState) (group_id max_notification_id : Int) :
    NMState × Except (Int × String) Unit :=
  if ¬ 0 < group_id then
    (st, Except.error (400, "Group identifier is invalid"))
  else if ¬ 0 < max_notification_id then
    (st, Except.error (400, "Notification identifier is invalid"))
  else if st.disabled then (st, Except.ok ())
  else (st, Except.ok ())

/-! ### Order lemmas for the group-key comparator -/

theorem keyLt_trans {a b c : NotificationGroupKey} (hab : keyLt a b)
    (hbc : keyLt b c) : keyLt a c := by
  unfold keyLt at *; omega

theorem keyLt_asymm {a b : NotificationGroupKey} (hab : keyLt a b) :
    ¬ keyLt b a := by
  unfold keyLt at *; omega

theorem keyLt_connex {a b : NotificationGroupKey}
    (h : a.group_id ≠ b.group_id) : keyLt a b ∨ keyLt b a := by
  unfold keyLt; omega

/-! ### The final group key computed during a flush -/

/-- The maximum `date` of a non-empty pending run (0 for the empty run). -/
def pendingMaxDate : List PendingNotification → Int
  | [] => 0
  | p :: ps => (ps.map (fun q => q.date)).foldl max p.date

theorem finalKeyOf_ids (k : NotificationGroupKey)
    (ps : List PendingNotification) :
    (finalKeyOf k ps).group_id = k.group_id ∧
      (finalKeyOf k ps).dialog_id = k.dialog_id := by
  induction ps generalizing k with
  | nil => exact ⟨rfl, rfl⟩
  | cons p ps ih =>
    have hstep : finalKeyOf k (p :: ps) =
        finalKeyOf (if p.date ≥ k.last_notification_date then
          (⟨k.group_id, k.dialog_id, p.date⟩ : NotificationGroupKey) else k) ps := rfl
    rw [hstep]
    by_cases h : p.date ≥ k.last_notification_date
    · rw [if_pos h]; exact ih ⟨k.group_id, k.dialog_id, p.date⟩
    · rw [if_neg h]; exact ih k

theorem finalKeyOf_date (k : NotificationGroupKey)
    (ps : List PendingNotification) :
    (finalKeyOf k ps).last_notification_date =
      (ps.map (fun q => q.date)).foldl max k.last_notification_date := by
  induction ps generalizing k with
  | nil => rfl
  | cons p ps ih =>
    have hstep : finalKeyOf k (p :: ps) =
        finalKeyOf (if p.date ≥ k.last_notification_date then
          (⟨k.group_id, k.dialog_id, p.date⟩ : NotificationGroupKey) else k) ps := rfl
    rw [hstep]
    simp only [List.map_cons, List.foldl_cons]
    by_cases h : p.date ≥ k.last_notification_date
    · rw [if_pos h, ih, max_eq_right h]
    · rw [if_neg h, ih,
        max_eq_left (le_of_lt (lt_of_not_ge h))]

theorem foldl_max_pull (l : List Int) : ∀ a b : Int,
    l.foldl max (max a b) = max a (l.foldl max b) := by
  induction l with
  | nil => intro a b; rfl
  | cons c l ih =>
    intro a b
    show l.foldl max (max (max a b) c) = max a (l.foldl max (max b c))
    rw [max_assoc, ih]

theorem le_foldl_max (l : List Int) : ∀ a : Int, a ≤ l.foldl max a := by
  induction l with
  | nil => intro a; exact le_refl a
  | cons c l ih =>
    intro a
    exact le_trans (le_max_left a c) (ih (max a c))

theorem finalKeyOf_date_ge (k : NotificationGroupKey)
    (ps : List PendingNotification) :
    k.last_notification_date ≤ (finalKeyOf k ps).last_notification_date := by
  rw [finalKeyOf_date]
  exact le_foldl_max _ _

theorem finalKeyOf_date_max (k : NotificationGroupKey) (p : PendingNotification)
    (ps : List PendingNotification) :
    (finalKeyOf k (p :: ps)).last_notification_date =
      max k.last_notification_date (pendingMaxDate (p :: ps)) := by
  rw [finalKeyOf_date]
  simp only [List.map_cons, List.foldl_cons, pendingMaxDate]
  exact foldl_max_pull _ _ _

/-- C5: if the updated key is not inside the window (`!is_updated`), then the
old key was not inside it either (`!was_updated`): the `CHECK(!was_updated)`
on the no-emission flush path never fails. -/
theorem flush_not_visible_implies_never_visible (k last : NotificationGroupKey)
    (ps : List PendingNotification)
    (h : ¬ keyLt (finalKeyOf k ps) last) :
    ¬ (k.last_notification_date ≠ 0 ∧ keyLt k last) := by
  have hids := finalKeyOf_ids k ps
  have hdate := finalKeyOf_date_ge k ps
  rintro ⟨-, hlt⟩
  apply h
  unfold keyLt at hlt ⊢
  omega

/-- Witness for C5 at a concrete input. -/
theorem flush_not_visible_implies_never_visible_witness :
    ¬ ((⟨1, 1, 0⟩ : NotificationGroupKey).last_notification_date ≠ 0 ∧
      keyLt ⟨1, 1, 0⟩ ⟨2, 2, 100⟩) :=
  flush_not_visible_implies_never_visible ⟨1, 1, 0⟩ ⟨2, 2, 100⟩
    [⟨5, 3, false, 7, none⟩] (by decide)

/-! ### Facts about flush results needed for the key claims -/

theorem findGroupEntry_group_id {groups : List GroupEntry} {gid : Int}
    {e : GroupEntry} (h : findGroupEntry groups gid = some e) :
    e.1.group_id = gid := by
  unfold findGroupEntry at h
  have hp := List.find?_some h
  simpa using hp

theorem sortedInsert_self_mem (k : NotificationGroupKey) (g : NotificationGroup)
    (l : List GroupEntry) (h : ∀ e ∈ l, keyLt k e.1 ∨ keyLt e.1 k) :
    (k, g) ∈ sortedInsert k g l := by
  induction l with
  | nil => simp [sortedInsert]
  | cons e es ih =>
    unfold sortedInsert
    by_cases h1 : keyLt k e.1
    · rw [if_pos h1]; exact List.mem_cons_self _ _
    · rw [if_neg h1]
      rcases h e (List.mem_cons_self e es) with h2 | h2
      · exact absurd h2 h1
      · rw [if_pos h2]
        exact List.mem_cons_of_mem e
          (ih (fun x hx => h x (List.mem_cons_of_mem e hx)))

theorem sortedInsert_mem {k : NotificationGroupKey} {g : NotificationGroup}
    {l : List GroupEntry} {e : GroupEntry} (h : e ∈ sortedInsert k g l) :
    e = (k, g) ∨ e ∈ l := by
  induction l with
  | nil => simpa [sortedInsert] using h
  | cons x xs ih =>
    unfold sortedInsert at h
    by_cases h1 : keyLt k x.1
    · rw [if_pos h1] at h
      rcases List.mem_cons.mp h with h2 | h2
      · exact Or.inl h2
      · exact Or.inr h2
    · rw [if_neg h1] at h
      by_cases h2 : keyLt x.1 k
      · rw [if_pos h2] at h
        rcases List.mem_cons.mp h with h3 | h3
        · exact Or.inr (List.mem_cons.mpr (Or.inl h3))
        · rcases ih h3 with h4 | h4
          · exact Or.inl h4
          · exact Or.inr (List.mem_cons.mpr (Or.inr h4))
      · rw [if_neg h2] at h
        exact Or.inr h

theorem flushGroupCore_key {maxCount maxSize keep : Nat}
    {groups1 : List GroupEntry} {k : NotificationGroupKey}
    {g : NotificationGroup}
    {r : NotificationGroupKey × NotificationGroup × List TdUpdate}
    (h : flushGroupCore maxCount maxSize keep groups1 k g = some r) :
    r.1 = finalKeyOf k g.pending_notifications ∧
      g.pending_notifications ≠ [] := by
  simp only [flushGroupCore] at h
  split at h
  · exact absurd h (by simp)
  · rename_i hne
    have hne' : g.pending_notifications ≠ [] := by
      intro hc; rw [hc] at hne; simp at hne
    refine ⟨?_, hne'⟩
    split at h
    · exact absurd h (by simp)
    · split at h
      · split at h
        · exact absurd h (by simp)
        · cases h; rfl
      · split at h
        · exact absurd h (by simp)
        · rcases Option.map_eq_some'.mp h with ⟨a, _, hfa⟩
          rw [← hfa]

theorem flushGroup_groups_eq {st : NMState} {gid : Int} {st' : NMState}
    {ups : List TdUpdate}
    (h : flush_pending_notifications_group st gid = some (st', ups)) :
    ∃ k g g2, findGroupEntry st.groups gid = some (k, g) ∧
      g.pending_notifications ≠ [] ∧
      st'.groups = sortedInsert (finalKeyOf k g.pending_notifications) g2
        (eraseGroupEntry st.groups gid) := by
  unfold flush_pending_notifications_group at h
  split at h
  · exact absurd h (by simp)
  · rename_i k g hf
    split at h
    · exact absurd h (by simp)
    · rename_i fk g2 ups2 hc
      obtain ⟨hkey, hne⟩ := flushGroupCore_key hc
      cases h
      refine ⟨k, g, g2, hf, hne, ?_⟩
      simp only at hkey
      rw [← hkey]

/-- Concrete input refuting C6: the old key's date (10) exceeds every pending
date (5). -/
def c6type : NotificationType := ⟨true, fun _ => some 4⟩

/-- Pending queue of the C6 scenario. -/
def c6pending : List PendingNotification := [⟨5, 3, false, 7, some c6type⟩]

/-- Manager state of the C6 scenario: one group, key date 10,
`max_notification_group_count = 1`, `max_notification_group_size = 10`,
`keep_notification_group_size = 20`. -/
def c6state : NMState :=
  ⟨[(⟨1, 1, 10⟩, ⟨[], 3, c6pending, 0⟩)], 1, 10, 20, false⟩

/-- C6 counterexample: flushing the group reinserts it under date 10, while
the maximum pending date just moved into `notifications` is 5; the claim
"the reinserted key's date equals the maximum date among the pending
notifications" is false on this input. -/
theorem claim6_counterexample :
    ((flush_pending_notifications_group c6state 1).map
      (fun r => r.1.groups.map (fun e => e.1.last_notification_date))) = some [10] ∧
    pendingMaxDate c6pending = 5 ∧ (10 : Int) ≠ 5 := by
  refine ⟨by decide, by decide, by decide⟩

/-- C6 as amended: the reinserted key's `last_notification_date` is the
maximum of the *old key's date* and the dates of the pending notifications
being flushed (the source folds starting from the old key's date). -/
theorem claim6_final_key_date (st : NMState) (gid : Int) (st' : NMState)
    (ups : List TdUpdate) (k0 : NotificationGroupKey) (g0 : NotificationGroup)
    (hfind : findGroupEntry st.groups gid = some (k0, g0))
    (hdistinct : ∀ e ∈ eraseGroupEntry st.groups gid, e.1.group_id ≠ gid)
    (h : flush_pending_notifications_group st gid = some (st', ups)) :
    (⟨gid, k0.dialog_id,
      max k0.last_notification_date (pendingMaxDate g0.pending_notifications)⟩ :
      NotificationGroupKey) ∈ st'.groups.map Prod.fst := by
  obtain ⟨k, g, g2, hf2, hne, hgroups⟩ := flushGroup_groups_eq h
  rw [hfind] at hf2
  injection hf2 with hkg
  cases hkg
  have hgid : k0.group_id = gid := findGroupEntry_group_id hfind
  obtain ⟨p, ps, hps⟩ := List.exists_cons_of_ne_nil hne
  have hids := finalKeyOf_ids k0 g0.pending_notifications
  have hdate : (finalKeyOf k0 g0.pending_notifications).last_notification_date =
      max k0.last_notification_date (pendingMaxDate g0.pending_notifications) := by
    rw [hps]; exact finalKeyOf_date_max k0 p ps
  have hkeyeq : finalKeyOf k0 g0.pending_notifications =
      (⟨gid, k0.dialog_id,
        max k0.last_notification_date (pendingMaxDate g0.pending_notifications)⟩ :
        NotificationGroupKey) :=
    calc finalKeyOf k0 g0.pending_notifications
        = ⟨(finalKeyOf k0 g0.pending_notifications).group_id,
           (finalKeyOf k0 g0.pending_notifications).dialog_id,
           (finalKeyOf k0 g0.pending_notifications).last_notification_date⟩ := rfl
      _ = ⟨gid, k0.dialog_id,
           max k0.last_notification_date (pendingMaxDate g0.pending_notifications)⟩ := by
          rw [hids.1, hids.2, hdate, hgid]
  have hconnex : ∀ e ∈ eraseGroupEntry st.groups gid,
      keyLt (finalKeyOf k0 g0.pending_notifications) e.1 ∨
        keyLt e.1 (finalKeyOf k0 g0.pending_notifications) := by
    intro e he
    have h1 : e.1.group_id ≠ (finalKeyOf k0 g0.pending_notifications).group_id := by
      rw [hids.1, hgid]
      exact hdistinct e he
    rcases keyLt_connex h1 with hx | hx
    · exact Or.inr hx
    · exact Or.inl hx
  have hmem : (finalKeyOf k0 g0.pending_notifications, g2) ∈ st'.groups := by
    rw [hgroups]
    exact sortedInsert_self_mem _ _ _ hconnex
  rw [← hkeyeq]
  exact List.mem_map.mpr ⟨_, hmem, rfl⟩

/-- Witness for the amended C6 at the concrete C6 input. -/
theorem claim6_final_key_date_witness :
    (⟨1, 1, max 10 (pendingMaxDate c6pending)⟩ : NotificationGroupKey) ∈
      (NMState.mk [(⟨1, 1, 10⟩, ⟨[⟨7, some c6type⟩], 4, [], 0⟩)] 1 10 20
        false).groups.map Prod.fst := by
  have hc6key : (⟨1, 1, 10⟩ : NotificationGroupKey).dialog_id = 1 := rfl
  exact claim6_final_key_date c6state 1
    (NMState.mk [(⟨1, 1, 10⟩, ⟨[⟨7, some c6type⟩], 4, [], 0⟩)] 1 10 20 false)
    [TdUpdate.group ⟨1, 1, 3, false, 4, [(7, 4)], []⟩] ⟨1, 1, 10⟩
    ⟨[], 3, c6pending, 0⟩ rfl (by simp [eraseGroupEntry, c6state]) rfl

/-! ### The sub-batch flush: rendered items, the cap, and `total_count` -/

theorem buildAdded_fst {d : Int} {ps : List PendingNotification}
    {r : List (Int × Nat) × List Notification}
    (h : buildAdded d ps = some r) : r.1 = renderedPairs d ps := by
  induction ps generalizing r with
  | nil =>
    simp only [buildAdded] at h
    cases h
    simp [renderedPairs]
  | cons p ps ih =>
    simp only [buildAdded] at h
    rcases hp : p.ntype with - | t
    · rw [hp] at h; exact absurd h (by simp)
    · rw [hp] at h
      rcases Option.map_eq_some'.mp h with ⟨r0, hr0, hfr⟩
      have h1 := ih hr0
      rcases hc : t.renderedContent d with - | c
      · rw [hc] at hfr
        rw [← hfr]
        simp only [renderedPairs, List.filterMap_cons, hp, Option.some_bind, hc,
          Option.map_none']
        exact h1
      · rw [hc] at hfr
        rw [← hfr]
        simp only [renderedPairs, List.filterMap_cons, hp, Option.some_bind, hc,
          Option.map_some']
        simpa [renderedPairs] using h1

/-- C1: whenever a sub-batch flush emits an `updateNotificationGroup`, the
group's `total_count` advances by exactly the length of the update's
`added_notifications`, which is the rendered (non-null) item count capped at
`max_group_size`, the oldest rendered items being dropped by the cap;
null renders and cap-trimmed items contribute nothing. -/
theorem claim1_total_count_advances_by_emitted (maxSize : Nat)
    (key : NotificationGroupKey) (g g' : NotificationGroup)
    (ps : List PendingNotification) (u : GroupUpdate)
    (h : flush_pending_batch maxSize key g ps = some (g', some u)) :
    g'.total_count = g.total_count + (u.added.length : Int) ∧
    u.total_count = g'.total_count ∧
    u.added = (renderedPairs key.dialog_id ps).drop
      ((renderedPairs key.dialog_id ps).length -
        min (renderedPairs key.dialog_id ps).length maxSize) ∧
    u.added.length = min (renderedPairs key.dialog_id ps).length maxSize := by
  cases ps with
  | nil => exact absurd h (by simp [flush_pending_batch])
  | cons p0 ps0 =>
    simp only [flush_pending_batch] at h
    cases hb : buildAdded key.dialog_id (p0 :: ps0) with
    | none => rw [hb] at h; simp at h
    | some r =>
      obtain ⟨added0, kept⟩ := r
      rw [hb] at h
      dsimp only at h
      have has : added0 = renderedPairs key.dialog_id (p0 :: ps0) :=
        buildAdded_fst hb
      rw [← has]
      by_cases hlen : added0.length > maxSize
      · rw [if_pos hlen] at h
        have hmin : min added0.length maxSize = maxSize :=
          min_eq_right (le_of_lt hlen)
        split at h
        · split at h
          · simp at h
          · simp at h
        · simp only [Option.some.injEq, Prod.mk.injEq] at h
          obtain ⟨hg, hu⟩ := h
          subst hg
          subst hu
          refine ⟨rfl, rfl, ?_, ?_⟩
          · rw [hmin]
          · rw [hmin, List.length_drop]
            omega
      · rw [if_neg hlen] at h
        push_neg at hlen
        have hmin : min added0.length maxSize = added0.length :=
          min_eq_left hlen
        split at h
        · split at h
          · simp at h
          · simp at h
        · simp only [Option.some.injEq, Prod.mk.injEq] at h
          obtain ⟨hg, hu⟩ := h
          subst hg
          subst hu
          refine ⟨rfl, rfl, ?_, ?_⟩
          · rw [hmin]
            simp
          · rw [hmin]

/-- Notification types of the C1 witness scenario. -/
def c1tA : NotificationType := ⟨true, fun _ => some 1⟩

def c1tN : NotificationType := ⟨true, fun _ => none⟩

def c1tB : NotificationType := ⟨true, fun _ => some 2⟩

def c1tC : NotificationType := ⟨true, fun _ => some 3⟩

/-- Pending run of the C1 witness: four items, one rendering null, flushed
with `max_group_size = 2`. -/
def c1pending : List PendingNotification :=
  [⟨5, 3, false, 7, some c1tA⟩, ⟨5, 3, false, 8, some c1tN⟩,
   ⟨5, 3, false, 9, some c1tB⟩, ⟨6, 3, false, 10, some c1tC⟩]

/-- Group state after the C1 witness flush. -/
def c1group : NotificationGroup :=
  ⟨[⟨7, some c1tA⟩, ⟨9, some c1tB⟩, ⟨10, some c1tC⟩], 2, [], 0⟩

/-- Update emitted by the C1 witness flush. -/
def c1update : GroupUpdate := ⟨1, 1, 3, false, 2, [(9, 2), (10, 3)], []⟩

/-- Witness for C1: three of four items render, the cap keeps the newest
two, and `total_count` advances by exactly those two. -/
theorem claim1_total_count_advances_by_emitted_witness :
    c1group.total_count = NotificationGroup.empty.total_count +
      (c1update.added.length : Int) ∧
    c1update.total_count = c1group.total_count ∧
    c1update.added = (renderedPairs (1 : Int) c1pending).drop
      ((renderedPairs (1 : Int) c1pending).length -
        min (renderedPairs (1 : Int) c1pending).length 2) ∧
    c1update.added.length = min (renderedPairs (1 : Int) c1pending).length 2 :=
  claim1_total_count_advances_by_emitted 2 ⟨1, 1, 0⟩ NotificationGroup.empty
    c1group c1pending c1update rfl

/-- Type of the C2 scenario: it always renders null. -/
def c2type : NotificationType := ⟨true, fun _ => none⟩

/-- The single null-rendering pending item of the C2 scenario. -/
def c2pending : List PendingNotification := [⟨5, 3, false, 7, some c2type⟩]

/-- C2 counterexample: flushing a sub-batch whose only item renders null
leaves `total_count` at 0 (the item is dropped *and not counted*), whereas
the claim predicts `total_count = 1`. -/
theorem claim2_counterexample :
    ((flush_pending_batch 10 ⟨1, 1, 0⟩ NotificationGroup.empty c2pending).map
      (fun r => (r.1.total_count, r.2.isSome))) = some (0, false) ∧
    ((flush_pending_batch 10 ⟨1, 1, 0⟩ NotificationGroup.empty c2pending).map
      (fun r => r.1.total_count)) ≠ some 1 := by
  refine ⟨by decide, by decide⟩

theorem buildAdded_all_null {d : Int} {ps : List PendingNotification}
    (hall : ∀ p ∈ ps, ∃ t, p.ntype = some t ∧ t.renderedContent d = none) :
    buildAdded d ps = some ([], []) := by
  induction ps with
  | nil => rfl
  | cons p ps ih =>
    obtain ⟨t, hpt, hrt⟩ := hall p (List.mem_cons_self p ps)
    have hrest := ih (fun q hq => hall q (List.mem_cons_of_mem p hq))
    simp only [buildAdded, hpt, hrest, Option.map_some', hrt]

/-- C2 as amended: a pending item whose render returns null is silently
dropped from the emitted batch and is *not* counted in `total_count`; a
sub-batch of null-rendering items leaves the group unchanged and emits
nothing. -/
theorem claim2_null_render_dropped_and_uncounted (maxSize : Nat)
    (key : NotificationGroupKey) (g : NotificationGroup)
    (ps : List PendingNotification)
    (hall : ∀ p ∈ ps, ∃ t, p.ntype = some t ∧
      t.renderedContent key.dialog_id = none) :
    flush_pending_batch maxSize key g ps = some (g, none) := by
  cases ps with
  | nil => rfl
  | cons p0 ps0 =>
    have hb : buildAdded key.dialog_id (p0 :: ps0) = some ([], []) :=
      buildAdded_all_null hall
    simp only [flush_pending_batch, hb]
    have h0 : ¬ (([] : List (Int × Nat)).length > maxSize) := by simp
    rw [if_neg h0]
    have h1 : ¬ (min g.notifications.length maxSize +
        ([] : List (Int × Nat)).length > maxSize) := by
      simp [Nat.not_lt]
    rw [if_neg h1]
    simp only [List.isEmpty_nil, eq_self_iff_true, if_true, List.append_nil,
      List.length_nil, Nat.cast_zero, add_zero]

/-- Witness for the amended C2 at the concrete C2 input. -/
theorem claim2_null_render_dropped_and_uncounted_witness :
    flush_pending_batch 10 ⟨1, 1, 0⟩ (⟨[], 0, [], 0⟩ : NotificationGroup)
      c2pending = some (⟨[], 0, [], 0⟩, none) :=
  claim2_null_render_dropped_and_uncounted 10 ⟨1, 1, 0⟩ ⟨[], 0, [], 0⟩
    c2pending (by
      intro p hp
      simp only [c2pending, List.mem_singleton] at hp
      subst hp
      exact ⟨c2type, rfl, rfl⟩)

/-! ### Claim C3: invariant I5 (`total_count ≥ notifications.size()`) -/

/-- Invariant I5 of the spec, for every group in the store. -/
def invariantI5 (st : NMState) : Prop :=
  ∀ e ∈ st.groups, (e.2.notifications.length : Int) ≤ e.2.total_count

instance (st : NMState) : Decidable (invariantI5 st) := by
  unfold invariantI5; infer_instance

/-- Environment of the C3 trace: every dialog is a secret chat (delay base
0), close flag clear. -/
def c3env : DelayEnv :=
  ⟨fun _ => DialogType.SecretChat, ⟨true, false, 0, 0⟩, 0, 0, 300000, 30000,
    1000, 1, false⟩

/-- Initial manager state: empty store,
`max_notification_group_count = 1`, `max_notification_group_size = 10`,
`keep_notification_group_size = 20`, user session. -/
def c3st0 : NMState := ⟨[], 1, 10, 20, false⟩

/-- Notification type used by the C3 trace for group 2. -/
def c3tA : NotificationType := ⟨true, fun _ => some 9⟩

/-- Notification type used by the C3 trace for group 1. -/
def c3tB : NotificationType := ⟨true, fun _ => some 4⟩

/-- The C3 event trace: group 2 (date 100) is added and flushed, then group
1 (date 50) is added and flushed; with `max_group_count = 1` the second
flush takes the not-visible path. -/
def c3events : List NMEvent :=
  [NMEvent.add 2 2 100 2 false 1 c3tA,
   NMEvent.timerFire 2,
   NMEvent.add 1 1 50 3 false 2 c3tB,
   NMEvent.timerFire 1]

/-- C3 counterexample: after the trace, group 1 holds one notification but
`total_count = 0` — invariant I5 fails after a flush along the not-visible
path, where pending items are appended without advancing `total_count`. -/
theorem claim3_counterexample :
    ((runEvents c3env c3st0 c3events).map
      (fun r => (r.1.groups.map
        (fun e => (e.1.group_id, e.2.total_count, (e.2.notifications.length : Int))),
        decide (invariantI5 r.1)))) = some ([(2, 1, 1), (1, 0, 1)], false) := by
  decide

theorem buildAdded_all_some {d : Int} {ps : List PendingNotification}
    (hall : ∀ p ∈ ps, ∃ t c, p.ntype = some t ∧ t.renderedContent d = some c) :
    ∃ as ns, buildAdded d ps = some (as, ns) ∧ as.length = ps.length ∧
      ns.length = ps.length := by
  induction ps with
  | nil => exact ⟨[], [], rfl, rfl, rfl⟩
  | cons p ps ih =>
    obtain ⟨t, c, hpt, hc⟩ := hall p (List.mem_cons_self p ps)
    obtain ⟨as, ns, hb, hlas, hlns⟩ :=
      ih (fun q hq => hall q (List.mem_cons_of_mem p hq))
    refine ⟨(p.notification_id, c) :: as, ⟨p.notification_id, some t⟩ :: ns, ?_, ?_, ?_⟩
    · simp only [buildAdded, hpt, hb, Option.map_some', hc]
    · simp [hlas]
    · simp [hlns]

theorem flush_pending_batch_all_rendered {maxSize : Nat}
    {key : NotificationGroupKey} {g g' : NotificationGroup}
    {ps : List PendingNotification} {uu : Option GroupUpdate}
    (h : flush_pending_batch maxSize key g ps = some (g', uu))
    (hall : ∀ p ∈ ps, ∃ t c, p.ntype = some t ∧
      t.renderedContent key.dialog_id = some c)
    (hlen : ps.length ≤ maxSize) :
    g'.total_count = g.total_count + (ps.length : Int) ∧
      g'.notifications.length = g.notifications.length + ps.length := by
  cases ps with
  | nil =>
    simp only [flush_pending_batch, Option.some.injEq, Prod.mk.injEq] at h
    obtain ⟨hg, -⟩ := h
    subst hg
    simp
  | cons p0 ps0 =>
    obtain ⟨as, ns, hb, hlas, hlns⟩ := buildAdded_all_some hall
    simp only [flush_pending_batch, hb] at h
    have hnocap : ¬ (as.length > maxSize) := by
      rw [hlas]; exact Nat.not_lt.mpr hlen
    rw [if_neg hnocap] at h
    have hempty : as.isEmpty = false := by
      cases as
      · simp at hlas
      · rfl
    rw [hempty] at h
    rw [if_neg Bool.false_ne_true] at h
    simp only [Option.some.injEq, Prod.mk.injEq] at h
    obtain ⟨hg, -⟩ := h
    subst hg
    constructor
    · simp [hlas]
    · simp [hlns]

theorem flushBatches_inv {maxSize : Nat} {key : NotificationGroupKey} :
    ∀ {rest batch : List PendingNotification} {s : Int} {sil : Bool}
      {g g' : NotificationGroup} {us : List GroupUpdate},
    flushBatches maxSize key s sil batch g rest = some (g', us) →
    (∀ p ∈ batch ++ rest, ∃ t c, p.ntype = some t ∧
      t.renderedContent key.dialog_id = some c) →
    batch.length + rest.length ≤ maxSize →
    g'.total_count = g.total_count + ((batch.length + rest.length : Nat) : Int) ∧
      g'.notifications.length =
        g.notifications.length + (batch.length + rest.length) := by
  intro rest
  induction rest with
  | nil =>
    intro batch s sil g g' us h hall hlen
    simp only [flushBatches] at h
    rcases hf : flush_pending_batch maxSize key g batch with - | r
    · rw [hf] at h; simp at h
    · obtain ⟨g1, u1⟩ := r
      rw [hf] at h
      simp only [Option.map_some', Option.some.injEq, Prod.mk.injEq] at h
      obtain ⟨hg, -⟩ := h
      subst hg
      have hres := flush_pending_batch_all_rendered hf
        (by simpa using hall) (by simpa using hlen)
      simpa using hres
  | cons p ps ih =>
    intro batch s sil g g' us h hall hlen
    simp only [flushBatches] at h
    split at h
    · rcases hf : flush_pending_batch maxSize key g batch with - | r
      · rw [hf] at h; simp at h
      · obtain ⟨g1, u1⟩ := r
        rw [hf] at h
        simp only at h
        rcases hrec : flushBatches maxSize key p.settings_dialog_id p.is_silent
            [p] g1 ps with - | r2
        · rw [hrec] at h; simp at h
        · obtain ⟨g2, us2⟩ := r2
          rw [hrec] at h
          simp only [Option.map_some', Option.some.injEq, Prod.mk.injEq] at h
          obtain ⟨hg, -⟩ := h
          subst hg
          have hlen' : batch.length + (p :: ps).length ≤ maxSize := hlen
          simp only [List.length_cons] at hlen'
          have hbatch := flush_pending_batch_all_rendered hf
            (fun q hq => hall q (List.mem_append_left _ hq))
            (by omega)
          have hrest := ih hrec
            (fun q hq => hall q (List.mem_append_right _
              (by rwa [List.singleton_append] at hq)))
            (by simp only [List.length_singleton, List.length_cons, List.length_nil]; omega)
          obtain ⟨ht1, hn1⟩ := hbatch
          obtain ⟨ht2, hn2⟩ := hrest
          simp only [List.length_singleton, List.length_cons, List.length_nil] at ht2 hn2 ⊢
          constructor
          · rw [ht2, ht1]
            push_cast
            ring
          · rw [hn2, hn1]
            omega
    · have hrest := ih h
        (fun q hq => hall q
          (by rwa [List.append_assoc, List.singleton_append] at hq))
        (by simp only [List.length_append, List.length_singleton,
              List.length_cons, List.length_nil] at hlen ⊢; omega)
      obtain ⟨ht, hn⟩ := hrest
      simp only [List.length_append, List.length_singleton,
        List.length_cons, List.length_nil] at ht hn ⊢
      constructor
      · rw [ht]
        push_cast
        ring
      · rw [hn]
        omega

theorem finishGroup_total (keep : Nat) (g : NotificationGroup) :
    (finishGroup keep g).total_count = g.total_count := by
  simp only [finishGroup]
  split <;> rfl

theorem finishGroup_len_le (keep : Nat) (g : NotificationGroup) :
    (finishGroup keep g).notifications.length ≤ g.notifications.length := by
  simp only [finishGroup]
  split
  · simp only [List.length_drop]
    omega
  · exact le_refl _

theorem flushGroupCore_emit_inv {maxCount maxSize keep : Nat}
    {groups1 : List GroupEntry} {k : NotificationGroupKey}
    {g : NotificationGroup}
    {r : NotificationGroupKey × NotificationGroup × List TdUpdate}
    (h : flushGroupCore maxCount maxSize keep groups1 k g = some r)
    (hemit : keyLt (finalKeyOf k g.pending_notifications)
      (get_last_updated_group_key maxCount groups1)) :
    ∃ gb us, flushBatches maxSize k 0 false [] g g.pending_notifications =
      some (gb, us) ∧ r.2.1 = finishGroup keep gb := by
  simp only [flushGroupCore] at h
  split at h
  · exact absurd h (by simp)
  · split at h
    · exact absurd h (by simp)
    · split at h
      · exact absurd h (by simp)
      · rcases hfb : flushBatches maxSize k 0 false [] g
            g.pending_notifications with - | r2
        · rw [hfb] at h; simp at h
        · obtain ⟨gb, us⟩ := r2
          rw [hfb] at h
          simp only [Option.map_some', Option.some.injEq] at h
          refine ⟨gb, us, rfl, ?_⟩
          rw [← h]

/-- C3 as amended: invariant I5 (`total_count ≥ notifications.size()`) is
preserved by a flush that takes the emitting path, provided every pending
item renders non-null and the pending queue fits in `max_group_size` (so no
cap trimming occurs).  On the not-visible path, and when the cap trims,
`total_count` is not advanced for items appended to `notifications`, and I5
can fail (see the counterexample). -/
theorem claim3_I5_preserved (st : NMState) (gid : Int) (st' : NMState)
    (ups : List TdUpdate) (k0 : NotificationGroupKey) (g0 : NotificationGroup)
    (hfind : findGroupEntry st.groups gid = some (k0, g0))
    (hI5g : (g0.notifications.length : Int) ≤ g0.total_count)
    (hI5rest : ∀ e ∈ eraseGroupEntry st.groups gid,
      (e.2.notifications.length : Int) ≤ e.2.total_count)
    (hall : ∀ p ∈ g0.pending_notifications, ∃ t c, p.ntype = some t ∧
      t.renderedContent k0.dialog_id = some c)
    (hlen : g0.pending_notifications.length ≤ st.max_notification_group_size)
    (hemit : keyLt (finalKeyOf k0 g0.pending_notifications)
      (get_last_updated_group_key st.max_notification_group_count
        (eraseGroupEntry st.groups gid)))
    (h : flush_pending_notifications_group st gid = some (st', ups)) :
    invariantI5 st' := by
  unfold flush_pending_notifications_group at h
  split at h
  · exact absurd h (by simp)
  · rename_i k g hf
    rw [hfind] at hf
    injection hf with hkg
    cases hkg
    split at h
    · exact absurd h (by simp)
    · rename_i fk g2 ups2 hc
      cases h
      obtain ⟨gb, us, hfb, hg2⟩ := flushGroupCore_emit_inv hc hemit
      simp only at hg2
      obtain ⟨ht, hn⟩ := flushBatches_inv hfb (by simpa using hall)
        (by simpa using hlen)
      simp only [List.length_nil, Nat.zero_add, zero_add] at ht hn
      intro e he
      rcases sortedInsert_mem he with heq | hmem
      · subst heq
        dsimp only
        rw [hg2, finishGroup_total]
        have h1 := finishGroup_len_le st.keep_notification_group_size gb
        omega
      · exact hI5rest e hmem

/-- Notification type of the C3 witness scenario. -/
def c3wtype : NotificationType := ⟨true, fun _ => some 6⟩

/-- Pending queue of the C3 witness scenario. -/
def c3wpending : List PendingNotification := [⟨15, 3, false, 7, some c3wtype⟩]

/-- Manager state of the C3 witness scenario: one group with I5 holding
(`total_count = 3`, no notifications), one renderable pending item. -/
def c3wstate : NMState := ⟨[(⟨1, 1, 10⟩, ⟨[], 3, c3wpending, 0⟩)], 1, 10, 20, false⟩

/-- Group state after the C3 witness flush. -/
def c3wgroup : NotificationGroup := ⟨[⟨7, some c3wtype⟩], 4, [], 0⟩

/-- Manager state after the C3 witness flush. -/
def c3wafter : NMState := ⟨[(⟨1, 1, 15⟩, c3wgroup)], 1, 10, 20, false⟩

/-- Witness for the amended C3 at a concrete emitting flush. -/
theorem claim3_I5_preserved_witness :
    (c3wgroup.notifications.length : Int) ≤ c3wgroup.total_count :=
  claim3_I5_preserved c3wstate 1 c3wafter
    [TdUpdate.group ⟨1, 1, 3, false, 4, [(7, 6)], []⟩] ⟨1, 1, 10⟩
    ⟨[], 3, c3wpending, 0⟩ rfl (by decide) (by decide)
    (by
      intro p hp
      simp only [c3wpending, List.mem_singleton] at hp
      subst hp
      exact ⟨c3wtype, 6, rfl, rfl⟩)
    (by decide) (by decide) rfl
    (⟨1, 1, 15⟩, c3wgroup) (List.mem_singleton.mpr rfl)

/-! ### Claim C4: the last visible key and the window membership test -/

instance (maxCount : Nat) (groups : List GroupEntry) (K : NotificationGroupKey) :
    Decidable (wouldBeVisible maxCount groups K) := by
  unfold wouldBeVisible; infer_instance

theorem lastUpdatedIter_sentinel :
    ∀ (groups : List GroupEntry) (M : Nat), groups.length < M →
    lastUpdatedIter M groups = NotificationGroupKey.sentinel := by
  intro groups
  induction groups with
  | nil => intro M _; rfl
  | cons e es ih =>
    intro M h
    simp only [List.length_cons] at h
    have h1 : 1 < M := by omega
    show (if 1 < M then lastUpdatedIter (M - 1) es else e.1) = _
    rw [if_pos h1]
    exact ih (M - 1) (by omega)

theorem lastUpdatedIter_get :
    ∀ (n : Nat) (groups : List GroupEntry) (h2 : n < groups.length),
    lastUpdatedIter (n + 1) groups = (groups.get ⟨n, h2⟩).1 := by
  intro n
  induction n with
  | zero =>
    intro groups h2
    cases groups with
    | nil => simp at h2
    | cons e es =>
      show (if 1 < 1 then lastUpdatedIter 0 es else e.1) = _
      rw [if_neg (by omega)]
      rfl
  | succ m ih =>
    intro groups h2
    cases groups with
    | nil => simp at h2
    | cons e es =>
      show (if 1 < m + 2 then lastUpdatedIter (m + 2 - 1) es else e.1) = _
      rw [if_pos (by omega)]
      have hidx : m + 2 - 1 = m + 1 := by omega
      rw [hidx, ih es (by simpa using h2)]
      rfl

theorem countP_le_of_drop_fails {α : Type} (p : α → Bool) (l : List α) (n : Nat)
    (h : ∀ x ∈ l.drop n, ¬ p x) : l.countP p ≤ n :=
  calc l.countP p = (l.take n).countP p + (l.drop n).countP p := by
        rw [← List.countP_append, List.take_append_drop]
    _ = (l.take n).countP p := by
        rw [List.countP_eq_zero.mpr h, Nat.add_zero]
    _ ≤ (l.take n).length := List.countP_le_length p
    _ ≤ n := by rw [List.length_take]; exact min_le_left _ _

theorem le_countP_of_take_holds {α : Type} (p : α → Bool) (l : List α) (n : Nat)
    (hn : n ≤ l.length) (h : ∀ x ∈ l.take n, p x) : n ≤ l.countP p :=
  calc n = (l.take n).length := by rw [List.length_take]; exact (min_eq_left hn).symm
    _ = (l.take n).countP p := (List.countP_eq_length.mpr h).symm
    _ ≤ (l.take n).countP p + (l.drop n).countP p := Nat.le_add_right _ _
    _ = l.countP p := by rw [← List.countP_append, List.take_append_drop]

/-- C4 as amended: for `max_group_count ≥ 1`, for a sorted store of
distinct group ids and a valid absent key `K`, `get_last_updated_group_key`
returns the key at (1-based) position `max_group_count` counting from the
front, or the sentinel when fewer entries exist, and `K < last_key` holds
iff `K` would be inside the visible window were it present.  (For
`max_group_count = 0` the claim fails; see the counterexample.) -/
theorem claim4_last_visible_key (maxCount : Nat) (groups : List GroupEntry)
    (K : NotificationGroupKey) (h1 : 1 ≤ maxCount)
    (hsorted : List.Pairwise (fun a b => keyLt a.1 b.1) groups)
    (hgid : 0 < K.group_id) (hdate : 0 ≤ K.last_notification_date)
    (hdistinct : ∀ e ∈ groups, e.1.group_id ≠ K.group_id) :
    (groups.length < maxCount →
      get_last_updated_group_key maxCount groups = NotificationGroupKey.sentinel) ∧
    (∀ h2 : maxCount - 1 < groups.length,
      get_last_updated_group_key maxCount groups =
        (groups.get ⟨maxCount - 1, h2⟩).1) ∧
    (keyLt K (get_last_updated_group_key maxCount groups) ↔
      wouldBeVisible maxCount groups K) := by
  obtain ⟨n, rfl⟩ : ∃ n, maxCount = n + 1 := ⟨maxCount - 1, by omega⟩
  refine ⟨fun hlen => lastUpdatedIter_sentinel groups (n + 1) hlen, ?_, ?_⟩
  · intro h2
    exact lastUpdatedIter_get n groups (by simpa using h2)
  · by_cases hlen : groups.length < n + 1
    · have hsent : get_last_updated_group_key (n + 1) groups =
          NotificationGroupKey.sentinel :=
        lastUpdatedIter_sentinel groups (n + 1) hlen
      rw [hsent]
      have hKlt : keyLt K NotificationGroupKey.sentinel := by
        simp only [keyLt, NotificationGroupKey.sentinel]
        omega
      have hvis : wouldBeVisible (n + 1) groups K :=
        lt_of_le_of_lt (List.countP_le_length _) hlen
      exact iff_of_true hKlt hvis
    · push_neg at hlen
      have h2 : n < groups.length := by omega
      have hlast : get_last_updated_group_key (n + 1) groups =
          (groups.get ⟨n, h2⟩).1 :=
        lastUpdatedIter_get n groups h2
      rw [hlast]
      have hmem : groups.get ⟨n, h2⟩ ∈ groups := groups.get_mem n h2
      have hdrop : groups.drop n = groups.get ⟨n, h2⟩ :: groups.drop (n + 1) := by
        rw [List.drop_eq_getElem_cons h2]
        rw [List.get_eq_getElem]
      have hpairdrop : ∀ y ∈ groups.drop (n + 1),
          keyLt (groups.get ⟨n, h2⟩).1 y.1 := by
        have hs : List.Pairwise (fun a b => keyLt a.1 b.1) (groups.drop n) :=
          hsorted.sublist (List.drop_sublist n groups)
        rw [hdrop] at hs
        exact fun y hy => (List.pairwise_cons.mp hs).1 y hy
      have hcross : ∀ x ∈ groups.take n, keyLt x.1 (groups.get ⟨n, h2⟩).1 := by
        have hs : List.Pairwise (fun a b => keyLt a.1 b.1)
            (groups.take n ++ groups.drop n) := by
          rw [List.take_append_drop]
          exact hsorted
        intro x hx
        exact (List.pairwise_append.mp hs).2.2 x hx _
          (by rw [hdrop]; exact List.mem_cons_self _ _)
      constructor
      · intro hKlast
        refine lt_of_le_of_lt (countP_le_of_drop_fails _ groups n ?_) (by omega)
        intro x hx
        rw [hdrop] at hx
        rcases List.mem_cons.mp hx with rfl | hx2
        · simpa using keyLt_asymm hKlast
        · simpa using keyLt_asymm (keyLt_trans hKlast (hpairdrop x hx2))
      · intro hvis
        by_contra hKlast
        have hne : (groups.get ⟨n, h2⟩).1.group_id ≠ K.group_id :=
          hdistinct _ hmem
        rcases keyLt_connex hne with hx | hx
        · apply absurd hvis
          simp only [wouldBeVisible, Nat.not_lt]
          refine le_countP_of_take_holds _ groups (n + 1) hlen ?_
          intro x hx2
          rw [List.take_succ] at hx2
          rcases List.mem_append.mp hx2 with hx3 | hx3
          · simpa using keyLt_trans (hcross x hx3) hx
          · have hget : groups[n]? = some (groups.get ⟨n, h2⟩) := by
              rw [List.getElem?_eq_getElem h2, List.get_eq_getElem]
            rw [hget] at hx3
            simp only [Option.toList_some, List.mem_singleton] at hx3
            subst hx3
            simpa using hx
        · exact hKlast hx

/-- Store of the C4 counterexample. -/
def c4store : List GroupEntry := [(⟨2, 2, 5⟩, NotificationGroup.empty)]

/-- Probe key of the C4 counterexample. -/
def c4K : NotificationGroupKey := ⟨3, 3, 9⟩

/-- C4 counterexample at `max_group_count = 0`: the visible window is empty,
so no key would be visible were it present, yet `K < last_key` holds (the
iterator returns the *first* store key when `max_group_count = 0`, not a key
one past the window). -/
theorem claim4_counterexample :
    keyLt c4K (get_last_updated_group_key 0 c4store) ∧
      ¬ wouldBeVisible 0 c4store c4K := by
  constructor
  · decide
  · decide

/-- Store of the C4 witness: three groups sorted by descending date. -/
def c4wstore : List GroupEntry :=
  [(⟨4, 4, 9⟩, NotificationGroup.empty), (⟨5, 5, 7⟩, NotificationGroup.empty),
   (⟨6, 6, 3⟩, NotificationGroup.empty)]

/-- Probe key of the C4 witness. -/
def c4wK : NotificationGroupKey := ⟨1, 1, 8⟩

/-- Witness for the amended C4 at `max_group_count = 2`. -/
theorem claim4_last_visible_key_witness :
    keyLt c4wK (get_last_updated_group_key 2 c4wstore) ↔
      wouldBeVisible 2 c4wstore c4wK :=
  (claim4_last_visible_key 2 c4wstore c4wK (by decide) (by decide) (by decide)
    (by decide) (by decide)).2.2

/-! ### Claim C7: the edit path -/

theorem editScanNotifs_visible (gid did : Int) (maxSize totalLen : Nat)
    (nid : Int) (t : NotificationType) (c : Nat)
    (hrender : t.renderedContent did = some c) :
    ∀ (l : List Notification) (i0 j : Nat) (hj : j < l.length),
    (∀ j' (hj' : j' < j), (l.get ⟨j', lt_trans hj' hj⟩).notification_id ≠ nid) →
    (l.get ⟨j, hj⟩).notification_id = nid →
    i0 + j + maxSize ≥ totalLen →
    editScanNotifs gid did maxSize totalLen nid i0 (some t) l =
      some (l.set j ⟨nid, some t⟩,
        EditScanOutcome.earlyReturn (some (TdUpdate.single gid nid c))) := by
  intro l
  induction l with
  | nil => intro i0 j hj; simp at hj
  | cons n ns ih =>
    intro i0 j hj hfirst hmatch hvis
    cases j with
    | zero =>
      have hid : n.notification_id = nid := hmatch
      have hvis0 : i0 + maxSize ≥ totalLen := by omega
      simp only [editScanNotifs]
      rw [if_pos hid, if_pos hvis0]
      rw [hrender]
      simp [hid]
    | succ j' =>
      have hne : ¬ (n.notification_id = nid) := hfirst 0 (Nat.succ_pos j')
      have hj2 : j' < ns.length := by simpa using hj
      have hrec := ih (i0 + 1) j' hj2
        (fun j'' hj'' => hfirst (j'' + 1) (by omega))
        hmatch (by omega)
      simp only [editScanNotifs]
      rw [if_neg hne, hrec]
      rfl

/-- C7 as amended: when the first matching notification lies in the visible
suffix (and its new content renders non-null), `edit_notification` emits the
single-notification update and returns immediately: the pending queue is
*not* rescanned and keeps its previous types.  Pending items are rescanned
and replaced only when no visible-suffix match caused the early return. -/
theorem claim7_visible_match_returns_early (st : NMState) (gid nid : Int)
    (t : NotificationType) (c : Nat) (k : NotificationGroupKey)
    (g : NotificationGroup) (j : Nat) (hj : j < g.notifications.length)
    (hdis : st.disabled = false) (hnid : 0 < nid)
    (hfind : findGroupEntry st.groups gid = some (k, g))
    (hfirst : ∀ j' (hj' : j' < j),
      (g.notifications.get ⟨j', lt_trans hj' hj⟩).notification_id ≠ nid)
    (hmatch : (g.notifications.get ⟨j, hj⟩).notification_id = nid)
    (hvis : j + st.max_notification_group_size ≥ g.notifications.length)
    (hrender : t.renderedContent k.dialog_id = some c) :
    edit_notification st gid nid t =
      some ({ st with groups := replaceGroup st.groups gid { g with notifications := g.notifications.set j ⟨nid, some t⟩ } }, [TdUpdate.single k.group_id nid c]) := by
  unfold edit_notification
  rw [hdis]
  rw [if_neg (by simp)]
  rw [if_neg (not_not_intro hnid)]
  rw [hfind]
  dsimp only
  have hscan := editScanNotifs_visible k.group_id k.dialog_id
    st.max_notification_group_size g.notifications.length nid t c hrender
    g.notifications 0 j hj hfirst hmatch (by omega)
  rw [hscan]
  rfl

/-- The old notification type of the C7 scenario (`can_be_delayed = false`). -/
def c7told : NotificationType := ⟨false, fun _ => some 0⟩

/-- The replacement type of the C7 scenario (`can_be_delayed = true`). -/
def c7tnew : NotificationType := ⟨true, fun _ => some 1⟩

/-- C7 state: notification 9 is in the visible suffix, and a pending item
with the same id 9 is queued. -/
def c7state : NMState :=
  ⟨[(⟨1, 1, 5⟩, ⟨[⟨9, some c7told⟩], 1, [⟨6, 2, false, 9, some c7told⟩], 0⟩)],
    10, 10, 20, false⟩

/-- C7 counterexample: `edit_notification` on id 9 emits the
single-notification update and returns before scanning the pending queue:
the pending item with id 9 keeps the *old* type (`can_be_delayed = false`),
while the claim predicts it is replaced with the new one. -/
theorem claim7_counterexample :
    ((edit_notification c7state 1 9 c7tnew).map (fun r =>
      (r.2, (findGroupEntry r.1.groups 1).map (fun e =>
        e.2.pending_notifications.map (fun p =>
          p.ntype.map (fun ty => ty.canBeDelayed)))))) =
      some ([TdUpdate.single 1 9 1], some [some false]) ∧
    c7tnew.canBeDelayed = true := by
  refine ⟨by decide, rfl⟩

/-- Group state after the C7 witness edit. -/
def c7wgroup : NotificationGroup :=
  ⟨[⟨9, some c7tnew⟩], 1, [⟨6, 2, false, 9, some c7told⟩], 0⟩

/-- Witness for the amended C7 at the concrete C7 input: the notification is
replaced, the single update is emitted, and the pending queue is untouched. -/
theorem claim7_visible_match_returns_early_witness :
    edit_notification c7state 1 9 c7tnew =
      some ({ c7state with groups := replaceGroup c7state.groups 1 { (⟨[⟨9, some c7told⟩], 1, [⟨6, 2, false, 9, some c7told⟩], 0⟩ : NotificationGroup) with notifications := [(⟨9, some c7told⟩ : Notification)].set 0 ⟨9, some c7tnew⟩ } }, [TdUpdate.single 1 9 1]) :=
  claim7_visible_match_returns_early c7state 1 9 c7tnew 1 ⟨1, 1, 5⟩
    ⟨[⟨9, some c7told⟩], 1, [⟨6, 2, false, 9, some c7told⟩], 0⟩ 0 (by decide)
    rfl (by decide) rfl (fun j' hj' => absurd hj' (Nat.not_lt_zero j')) rfl
    (by decide) rfl

/-! ### Claims C8, C9, C10 -/

/-- C8: whenever `get_notification_delay_ms` returns, the delay is at least
`MIN_NOTIFICATION_DELAY_MS`, and for a secret-chat dialog the base delay is
0 and the result is exactly `MIN_NOTIFICATION_DELAY_MS` (for any
non-negative value of that constant). -/
theorem claim8_delay_floor (env : DelayEnv) (dialog_id : Int)
    (n : PendingNotification) (hmin : 0 ≤ env.min_notification_delay_ms) :
    (∀ d, get_notification_delay_ms env dialog_id n = some d →
      env.min_notification_delay_ms ≤ d) ∧
    (env.dialogType dialog_id = DialogType.SecretChat →
      get_notification_delay_ms env dialog_id n =
        some env.min_notification_delay_ms) := by
  constructor
  · intro d hd
    simp only [get_notification_delay_ms] at hd
    rcases Option.map_eq_some'.mp hd with ⟨delay, -, hfd⟩
    rw [← hfd]
    exact le_max_right _ _
  · intro hsecret
    simp only [get_notification_delay_ms]
    rw [if_pos hsecret]
    simp only [Option.map_some']
    generalize hp : max 0 (ratTruncToInt ((env.server_time - (n.date : ℚ) - 1) * 1000)) = p
    have hpassed : 0 ≤ p := hp ▸ le_max_left _ _
    rw [max_eq_right (by omega)]

/-- Environment of the C8 witness: secret-chat dialogs,
`MIN_NOTIFICATION_DELAY_MS = 1`. -/
def c8env : DelayEnv :=
  ⟨fun _ => DialogType.SecretChat, ⟨true, false, 0, 0⟩, 0, 0, 0, 0, 0, 1, false⟩

/-- Pending notification of the C8 witness. -/
def c8pending : PendingNotification := ⟨0, 1, false, 1, none⟩

/-- Witness for C8 at a concrete secret-chat input. -/
theorem claim8_delay_floor_witness :
    get_notification_delay_ms c8env 1 c8pending = some 1 ∧ (1 : Int) ≤ 1 :=
  ⟨(claim8_delay_floor c8env 1 c8pending (by decide)).2 rfl,
   (claim8_delay_floor c8env 1 c8pending (by decide)).1 1
     ((claim8_delay_floor c8env 1 c8pending (by decide)).2 rfl)⟩

/-- C9: `remove_notification` resolves the promise with a 400 error when the
notification id is invalid (checked even for bot sessions), and for a bot
session with a valid id it resolves successfully with unit, leaving the
manager state (group store included) unchanged. -/
theorem claim9_remove_notification (st : NMState) (gid nid : Int) :
    (¬ 0 < nid → remove_notification st gid nid =
      (st, Except.error (400, "Notification identifier is invalid"))) ∧
    (st.disabled = true → 0 < nid → remove_notification st gid nid =
      (st, Except.ok ())) := by
  constructor
  · intro h
    unfold remove_notification
    rw [if_pos h]
  · intro hdis hnid
    unfold remove_notification
    rw [if_neg (not_not_intro hnid), hdis, if_pos rfl]

/-- Manager state of the C9 witness: a bot session. -/
def c9state : NMState := ⟨[], 1, 10, 20, true⟩

/-- Witness for C9: invalid id yields the 400 error, valid id on a bot
session yields success with the state unchanged. -/
theorem claim9_remove_notification_witness :
    remove_notification c9state 5 0 =
      (c9state, Except.error (400, "Notification identifier is invalid")) ∧
    remove_notification c9state 5 3 = (c9state, Except.ok ()) :=
  ⟨(claim9_remove_notification c9state 5 0).1 (by decide),
   (claim9_remove_notification c9state 5 3).2 rfl (by decide)⟩

/-- Manager state of the C10 scenario: user session, empty store. -/
def c10state : NMState := ⟨[], 1, 10, 20, false⟩

/-- Replacement type of the C10 scenario. -/
def c10type : NotificationType := ⟨true, fun _ => some 2⟩

/-- C10: with a valid group id absent from the store, a valid notification
id, and a non-bot session, `edit_notification`'s unguarded group lookup
fails (`get_group` returns the `end()` iterator) and the dereference branch
is reached — modelled by the `none` result.  The flush path, by contrast,
`CHECK`s the lookup. -/
theorem claim10_edit_unguarded_lookup :
    c10state.disabled = false ∧ (0 : Int) < 1 ∧ (0 : Int) < 5 ∧
    findGroupEntry c10state.groups 1 = none ∧
    edit_notification c10state 1 5 c10type = none :=
  ⟨rfl, by decide, by decide, rfl, rfl⟩
